import Mathlib

/-!
# Verification of the rtldavis protocol layer

A shallow embedding of `protocol/protocol.go` (rtldavis, the Davis
Instruments weather-station receiver).  Go bytes are modelled as `Nat`
(values below 256), Go `int` values as `Int` or `Nat` (no arithmetic in
this file approaches the 64-bit range, so wraparound is immaterial), the
Go map `channelFreqErr : map[int]int` as a function `Nat → Option Int`,
and `time.Duration` as an `Int` counting nanoseconds.

The `dsp` and `crc` packages are external collaborators of this
repository (only `protocol.go` is its source), so `Parser.Parse` is
parameterised by the checksum function (`p.Checksum`) and by the
frequency-error measurement derived from the shared discriminator trace;
the measurement itself (`protocol.go` lines 145-159, pure float64
arithmetic over the trace) is embedded over `ℝ` as `measureFreqErr`.
`rand.Intn` results are passed in as explicit arguments (`rand.Intn n`
always returns a value in `[0, n)`, which theorems take as a hypothesis).
-/

namespace Rtldavis

/-- Function `SwapBitOrder` (protocol.go:238-243): reverses the bit order of one
byte via three masked swaps (nibble swap, pair swap, single-bit swap). -/
def SwapBitOrder (b : Nat) : Nat :=
  let b1 := ((b &&& 0xF0) >>> 4) ||| ((b &&& 0x0F) <<< 4)
  let b2 := ((b1 &&& 0xCC) >>> 2) ||| ((b1 &&& 0x33) <<< 2)
  ((b2 &&& 0xAA) >>> 1) ||| ((b2 &&& 0x55) <<< 1)

/-- A `dsp.Packet` as consumed by the protocol layer: the byte payload
and the sample index into the shared discriminator trace. -/
structure DspPacket where
  idx : Nat
  data : List Nat
  deriving DecidableEq

/-- Structure `Hop` (protocol.go:84-88). -/
structure Hop where
  ChannelIdx : Nat
  ChannelFreq : Nat
  FreqError : Int
  deriving DecidableEq

/-- Structure `Parser` (protocol.go:40-57) restricted to the protocol-layer state;
the embedded `dsp.Demodulator`, `crc.CRC` and `dsp.PacketConfig` fields
are handles to external collaborators and enter the embedding as
parameters of the operations that consult them. -/
structure Parser where
  ID : Int
  DwellTime : Int
  channelCount : Nat
  channels : List Nat
  hopIdx : Nat
  hopPattern : List Nat
  currentFreqErr : Int
  channelFreqErr : Nat → Option Int

/-- The fixed channel list of `NewParser` (protocol.go:64-67), in Hz. -/
def channelTable : List Nat :=
  [867500000, 867625000, 867750000, 867875000,
   868000000, 868125000, 868250000, 868375000, 868500000]

/-- The fixed hop pattern of `NewParser` (protocol.go:71-73). -/
def hopPatternTable : List Nat := [0, 4, 8, 1, 5, 3, 6, 2, 7]

/-- Go's `time.Microsecond` in nanoseconds. -/
def microsecond : Int := 1000

/-- Constructor `NewParser` (protocol.go:59-82).  `r` is the value drawn by
`rand.Intn(p.channelCount)` for the initial hop index.  The
`symbolLength` argument is forwarded only to the external
`dsp.NewPacketConfig` and does not affect this state. -/
def NewParser (symbolLength : Nat) (id : Int) (r : Nat) : Parser :=
  let channels := channelTable
  { ID := id
    DwellTime := 3000 * microsecond + id * 62500 * microsecond
    channelCount := channels.length
    channels := channels
    hopIdx := r
    hopPattern := hopPatternTable
    currentFreqErr := 0
    channelFreqErr := fun _ => none }

/-- Method `Parser.hop` (protocol.go:96-108): resolve the channel index through
the hop pattern and the carrier frequency through the channel list; if
the channel has a recorded frequency error, it becomes the current
error, otherwise the current error is carried over unchanged.  Returns
the updated parser together with the hop descriptor. -/
def Parser.hop (p : Parser) : Parser × Hop :=
  let chIdx := p.hopPattern.getD p.hopIdx 0
  let chFreq := p.channels.getD chIdx 0
  let cur :=
    match p.channelFreqErr chIdx with
    | some freqErr => freqErr
    | none => p.currentFreqErr
  ({ p with currentFreqErr := cur },
   { ChannelIdx := chIdx, ChannelFreq := chFreq, FreqError := cur })

/-- Method `Parser.NextHop` (protocol.go:111-114): increment the pattern index
modulo the channel count, then describe the new channel. -/
def Parser.NextHop (p : Parser) : Parser × Hop :=
  Parser.hop { p with hopIdx := (p.hopIdx + 1) % p.channelCount }

/-- Method `Parser.RandHop` (protocol.go:117-120): randomize the pattern index,
then describe the new channel.  `r` is the value drawn by
`rand.Intn(p.channelCount)`. -/
def Parser.RandHop (p : Parser) (r : Nat) : Parser × Hop :=
  Parser.hop { p with hopIdx := r }

/-- The frequency-tracker update performed by `Parser.Parse` for every
packet that passes both gates (protocol.go:161-165): record
`currentFreqErr + delta` as the current channel's frequency error, then
add `delta` to the running current error. -/
def updateFreq (p : Parser) (delta : Int) : Parser :=
  let ch := p.hopPattern.getD p.hopIdx 0
  { p with
    channelFreqErr := fun k =>
      if k = ch then some (p.currentFreqErr + delta) else p.channelFreqErr k
    currentFreqErr := p.currentFreqErr + delta }

/-- Structure `Message` (protocol.go:173-181); the `Sensor` field keeps the raw
code (Go's `Sensor` is a defined byte type). -/
structure Message where
  Idx : Nat
  Data : List Nat
  ID : Nat
  Sensor : Nat
  WindSpeed : Nat
  WindDirection : Nat
  deriving DecidableEq

/-- Constructor `NewMessage` (protocol.go:183-193): strip the two prefix bytes and
extract the fixed-offset fields.  Out-of-range accesses (payloads
shorter than 5 bytes, on which the Go code panics) are totalised with
`List.getD`; `NewMessageChecked` below keeps the partiality. -/
def NewMessage (pkt : DspPacket) : Message :=
  let data := pkt.data.drop 2
  { Idx := pkt.idx
    Data := data
    ID := data.getD 0 0 &&& 0xF
    Sensor := data.getD 0 0 >>> 4
    WindSpeed := data.getD 1 0
    WindDirection := data.getD 2 0 }

/-- Variant of `NewMessage` with the Go panics made explicit: `none` exactly when
one of the element accesses `m.Data[0]`, `m.Data[1]`, `m.Data[2]` (or
the slice `pkt.Data[2:]` itself) is out of bounds. -/
def NewMessageChecked (pkt : DspPacket) : Option Message :=
  let data := pkt.data.drop 2
  match data.get? 0, data.get? 1, data.get? 2 with
  | some b0, some b1, some b2 =>
      some { Idx := pkt.idx
             Data := data
             ID := b0 &&& 0xF
             Sensor := b0 >>> 4
             WindSpeed := b1
             WindDirection := b2 }
  | _, _, _ => none

/-- Uppercase hexadecimal digit, as printed by Go's `%X` verb. -/
def hexDigit (n : Nat) : Char :=
  if n < 10 then Char.ofNat (48 + n) else Char.ofNat (55 + n)

/-- Go's `fmt.Sprintf("%0X", b)` for one byte: minimal-width uppercase
hexadecimal. -/
def byteHex (n : Nat) : String :=
  if n < 16 then String.mk [hexDigit n]
  else String.mk [hexDigit (n / 16), hexDigit (n % 16)]

/-- Method `Sensor.String` (protocol.go:213-236); unrecognized codes fall back
to `fmt.Sprintf("Unknown(0x%0X)", byte(s))`. -/
def SensorString (s : Nat) : String :=
  match s with
  | 2 => "SuperCap Voltage"
  | 4 => "UV Index"
  | 5 => "Rain Rate"
  | 6 => "Solar Radiation"
  | 7 => "Light"
  | 8 => "Temperature"
  | 9 => "Wind Gust Speed"
  | 10 => "Humidity"
  | 14 => "Rain"
  | _ => "Unknown(0x" ++ byteHex s ++ ")"

/-- The loop body of `Parser.Parse` (protocol.go:124-171) in explicit
state-passing form.  `cksum` is the external `p.Checksum` collaborator
applied to the payload without its two prefix bytes; `meas` is the
frequency-error measurement from the shared discriminator trace at a
packet's sample index (instantiated with `measureFreqErr` below); `seen`
holds the deduplication keys (bit-reversed payloads) recorded so far. -/
def parseGo (cksum : List Nat → Nat) (meas : Nat → Int)
    (seen : List (List Nat)) (p : Parser) :
    List DspPacket → Parser × List Message
  | [] => (p, [])
  | pkt :: rest =>
    let d := pkt.data.map SwapBitOrder
    if d ∈ seen then
      parseGo cksum meas seen p rest
    else if cksum (d.drop 2) ≠ 0 then
      parseGo cksum meas (d :: seen) p rest
    else
      let res := parseGo cksum meas (d :: seen) (updateFreq p (meas pkt.idx)) rest
      (res.1, NewMessage { idx := pkt.idx, data := d } :: res.2)

/-- Method `Parser.Parse` (protocol.go:124-171): the deduplication set starts
empty for each batch. -/
def Parse (cksum : List Nat → Nat) (meas : Nat → Int) (p : Parser)
    (pkts : List DspPacket) : Parser × List Message :=
  parseGo cksum meas [] p pkts

/-- Variant of `parseGo` with the Go panic of `NewMessage` on short payloads made
explicit: `none` when any decoded packet's payload is too short. -/
def parseGoChecked (cksum : List Nat → Nat) (meas : Nat → Int)
    (seen : List (List Nat)) (p : Parser) :
    List DspPacket → Option (Parser × List Message)
  | [] => some (p, [])
  | pkt :: rest =>
    let d := pkt.data.map SwapBitOrder
    if d ∈ seen then
      parseGoChecked cksum meas seen p rest
    else if cksum (d.drop 2) ≠ 0 then
      parseGoChecked cksum meas (d :: seen) p rest
    else
      match NewMessageChecked { idx := pkt.idx, data := d } with
      | none => none
      | some msg =>
        match parseGoChecked cksum meas (d :: seen) (updateFreq p (meas pkt.idx)) rest with
        | none => none
        | some res => some (res.1, msg :: res.2)

/-- Go's `int(x)` conversion from `float64`: truncation toward zero,
modelled over `ℝ`. -/
noncomputable def goTrunc (x : ℝ) : ℤ := if 0 ≤ x then ⌊x⌋ else ⌈x⌉

/-- The discriminator-trace slice
`p.Demodulator.Discriminated[lower:upper]` with
`lower = pkt.Idx + 8*symbolLength` and `upper = pkt.Idx + 24*symbolLength`
(protocol.go:147-149). -/
def tailSlice (disc : List ℝ) (symbolLength idx : Nat) : List ℝ :=
  (disc.take (idx + 24 * symbolLength)).drop (idx + 8 * symbolLength)

/-- The arithmetic mean of a list of samples, as the mean loop of
`Parser.Parse` computes it (protocol.go:151-155): accumulate the sum,
then divide by the length. -/
noncomputable def listMean (l : List ℝ) : ℝ := l.sum / (l.length : ℝ)

/-- The frequency-error measurement of `Parser.Parse`
(protocol.go:145-159), the float64 arithmetic idealized over `ℝ`: the
arithmetic mean of the tail slice of the discriminator trace, converted
to Hz by `-int(9600 + mean*sampleRate/(2*pi))`. -/
noncomputable def measureFreqErr (disc : List ℝ) (symbolLength sampleRate : Nat)
    (idx : Nat) : ℤ :=
  -goTrunc (9600 +
    listMean (tailSlice disc symbolLength idx) * (sampleRate : ℝ) / (2 * Real.pi))

/-- The frequency-error formula stated from the specification's words,
for the refinement in claim C5: take the slice of the trace beginning 8
symbol-periods and ending 24 symbol-periods after the packet's sample
index, compute the arithmetic mean of those samples, and convert via
`error = -(9600 + mean * sampleRate / (2 * pi))`, as an integer. -/
noncomputable def specFreqError (disc : List ℝ) (symbolLength sampleRate : Nat)
    (idx : Nat) : ℤ :=
  -goTrunc (9600 +
    listMean ((disc.take (idx + 24 * symbolLength)).drop (idx + 8 * symbolLength)) *
      (sampleRate : ℝ) / (2 * Real.pi))

/-- The parser state after `n` successive `NextHop` calls. -/
def nextHopIter (p : Parser) : Nat → Parser
  | 0 => p
  | n + 1 => nextHopIter (p.NextHop).1 n

/-- The hop descriptors returned by `n` successive `NextHop` calls. -/
def nextHopSeq (p : Parser) : Nat → List Hop
  | 0 => []
  | n + 1 => (p.NextHop).2 :: nextHopSeq (p.NextHop).1 n

/-! ## Basic lemmas -/

/-- Iterated `NextHop` only moves the hop index and the running current
error: the per-channel error map and the hop pattern are untouched. -/
lemma nextHopIter_channelFreqErr (p : Parser) (n : Nat) :
    (nextHopIter p n).channelFreqErr = p.channelFreqErr ∧
    (nextHopIter p n).hopPattern = p.hopPattern := by
  induction n generalizing p with
  | zero => exact ⟨rfl, rfl⟩
  | succ n ih => exact ih (p.NextHop).1

/-- Closed form for the channel indices visited by successive `NextHop`
calls: the `k`-th call reads the hop pattern at
`(hopIdx + k + 1) % channelCount`. -/
lemma nextHopSeq_map_channelIdx (n : Nat) : ∀ p : Parser,
    (nextHopSeq p n).map Hop.ChannelIdx =
      (List.range n).map
        (fun k => p.hopPattern.getD ((p.hopIdx + k + 1) % p.channelCount) 0) := by
  induction n with
  | zero => intro p; simp [nextHopSeq]
  | succ n ih =>
    intro p
    rw [nextHopSeq, List.map_cons, ih, List.range_succ_eq_map, List.map_cons,
      List.map_map]
    have hhead : ((p.NextHop).2).ChannelIdx =
        p.hopPattern.getD ((p.hopIdx + 0 + 1) % p.channelCount) 0 := rfl
    rw [hhead]
    refine congrArg _ ?_
    apply List.map_congr_left
    intro k _
    show (p.NextHop).1.hopPattern.getD
        (((p.NextHop).1.hopIdx + k + 1) % (p.NextHop).1.channelCount) 0 =
      p.hopPattern.getD ((p.hopIdx + (k + 1) + 1) % p.channelCount) 0
    have hstep : ((p.hopIdx + 1) % p.channelCount + k + 1) % p.channelCount =
        (p.hopIdx + (k + 1) + 1) % p.channelCount := by
      rw [Nat.add_assoc, Nat.mod_add_mod]
      congr 1
      omega
    exact congrArg (fun i => p.hopPattern.getD i 0) hstep

/-! ## Claims -/

set_option maxRecDepth 8192 in
/-- Claim C8: bit-order reversal is an involution on bytes, and maps
0b10110000 to 0b00001101 (bit 7 swaps with bit 0, 6 with 1, 5 with 2,
4 with 3). -/
theorem claim_C8_swapBitOrder_involution :
    (∀ b : Nat, b < 256 → SwapBitOrder (SwapBitOrder b) = b) ∧
    SwapBitOrder 0b10110000 = 0b00001101 := by
  constructor
  · decide
  · decide

theorem claim_C8_witness :
    SwapBitOrder (SwapBitOrder 0b10110000) = 0b10110000 :=
  claim_C8_swapBitOrder_involution.1 0b10110000 (by decide)

/-- Claim C9: for every configured identifier, the dwell time computed
by `NewParser` equals 3000 microseconds plus the identifier times 62500
microseconds. -/
theorem claim_C9_dwellTime (symbolLength : Nat) (id : Int) (r : Nat) :
    (NewParser symbolLength id r).DwellTime =
      3000 * microsecond + id * (62500 * microsecond) := by
  simp [NewParser, mul_assoc]

/-- Claim C7: the hop index is always in `[0, channelCount)`: it holds
after construction (the random draw is in `[0, 9)`), `NextHop` keeps it
in range by the modular increment, `RandHop` sets it to an in-range
random draw, and `Parse` never moves it. -/
theorem claim_C7_hopIdx_invariant :
    (∀ (symbolLength : Nat) (id : Int) (r : Nat), r < 9 →
      (NewParser symbolLength id r).hopIdx <
        (NewParser symbolLength id r).channelCount) ∧
    (∀ p : Parser, 0 < p.channelCount →
      (p.NextHop).1.hopIdx < p.channelCount) ∧
    (∀ (p : Parser) (r : Nat), r < p.channelCount →
      (p.RandHop r).1.hopIdx < p.channelCount) ∧
    (∀ cksum meas seen (p : Parser) pkts,
      (parseGo cksum meas seen p pkts).1.hopIdx = p.hopIdx) := by
  refine ⟨?_, ?_, ?_, ?_⟩
  · intro symbolLength id r hr
    simpa [NewParser, channelTable] using hr
  · intro p hp
    simpa [Parser.NextHop, Parser.hop] using Nat.mod_lt _ hp
  · intro p r hr
    simpa [Parser.RandHop, Parser.hop] using hr
  · intro cksum meas seen p pkts
    induction pkts generalizing seen p with
    | nil => rfl
    | cons pkt rest ih =>
      by_cases h1 : pkt.data.map SwapBitOrder ∈ seen
      · simp [parseGo, h1, ih]
      · by_cases h2 : cksum ((pkt.data.map SwapBitOrder).drop 2) ≠ 0
        · simp [parseGo, h1, h2, ih]
        · simp [parseGo, h1, h2, ih, updateFreq]

theorem claim_C7_witness :
    ((0 : Nat) < 9 ∧
      (NewParser 14 0 0).hopIdx < (NewParser 14 0 0).channelCount) ∧
    (0 < (NewParser 14 0 0).channelCount ∧
      ((NewParser 14 0 0).NextHop).1.hopIdx < (NewParser 14 0 0).channelCount) ∧
    (3 < (NewParser 14 0 0).channelCount ∧
      ((NewParser 14 0 0).RandHop 3).1.hopIdx < (NewParser 14 0 0).channelCount) :=
  ⟨⟨by decide, claim_C7_hopIdx_invariant.1 14 0 0 (by decide)⟩,
   ⟨by decide, claim_C7_hopIdx_invariant.2.1 _ (by decide)⟩,
   ⟨by decide, claim_C7_hopIdx_invariant.2.2.1 _ 3 (by decide)⟩⟩

/-- Claim C1: when the current channel has no recorded entry in the
per-channel error map, `hop` reports the current frequency error
unchanged; after the tracker update with measured `delta` (which adds
`delta` to the running current error and records the new value for the
current channel), any subsequent `hop` — after any number of `NextHop`
calls — that resolves to that channel reports the previous current error
plus `delta`. -/
theorem claim_C1_freq_tracking :
    (∀ p : Parser,
      p.channelFreqErr (p.hopPattern.getD p.hopIdx 0) = none →
      (Parser.hop p).2.FreqError = p.currentFreqErr) ∧
    (∀ (p : Parser) (delta : Int) (n : Nat),
      (nextHopIter (updateFreq p delta) n).hopPattern.getD
          (nextHopIter (updateFreq p delta) n).hopIdx 0 =
        p.hopPattern.getD p.hopIdx 0 →
      (Parser.hop (nextHopIter (updateFreq p delta) n)).2.FreqError =
        p.currentFreqErr + delta) := by
  constructor
  · intro p h
    simp only [Parser.hop]
    rw [h]
  · intro p delta n hq
    have hmap : (nextHopIter (updateFreq p delta) n).channelFreqErr =
        (updateFreq p delta).channelFreqErr :=
      (nextHopIter_channelFreqErr _ n).1
    simp only [Parser.hop]
    rw [hq, hmap]
    simp [updateFreq]

theorem claim_C1_witness :
    ((NewParser 14 0 0).channelFreqErr
        ((NewParser 14 0 0).hopPattern.getD (NewParser 14 0 0).hopIdx 0) = none ∧
      (Parser.hop (NewParser 14 0 0)).2.FreqError =
        (NewParser 14 0 0).currentFreqErr) ∧
    ((nextHopIter (updateFreq (NewParser 14 0 0) 5) 9).hopPattern.getD
        (nextHopIter (updateFreq (NewParser 14 0 0) 5) 9).hopIdx 0 =
        (NewParser 14 0 0).hopPattern.getD (NewParser 14 0 0).hopIdx 0 ∧
      (Parser.hop (nextHopIter (updateFreq (NewParser 14 0 0) 5) 9)).2.FreqError =
        (NewParser 14 0 0).currentFreqErr + 5) :=
  ⟨⟨rfl, claim_C1_freq_tracking.1 _ rfl⟩,
   ⟨by decide, claim_C1_freq_tracking.2 (NewParser 14 0 0) 5 9 (by decide)⟩⟩

/-- Claim C4: `NextHop` increments the hop index modulo the channel
count and returns the descriptor for the new index; starting from any
hop index, 9 successive `NextHop` calls visit all 9 entries of the hop
pattern `{0,4,8,1,5,3,6,2,7}` exactly once each, in the cyclic order of
the pattern array, and the sequence then repeats. -/
theorem claim_C4_hop_cycling (p : Parser) (hcc : p.channelCount = 9)
    (hpat : p.hopPattern = hopPatternTable) (hidx : p.hopIdx < 9) :
    ((p.NextHop).1.hopIdx = (p.hopIdx + 1) % p.channelCount ∧
      (p.NextHop).2.ChannelIdx =
        p.hopPattern.getD ((p.hopIdx + 1) % p.channelCount) 0) ∧
    (nextHopSeq p 9).map Hop.ChannelIdx =
      hopPatternTable.rotate ((p.hopIdx + 1) % 9) ∧
    ((nextHopSeq p 9).map Hop.ChannelIdx).Perm (List.range 9) ∧
    (nextHopSeq p 18).map Hop.ChannelIdx =
      (nextHopSeq p 9).map Hop.ChannelIdx ++ (nextHopSeq p 9).map Hop.ChannelIdx := by
  have key : ∀ n, (nextHopSeq p n).map Hop.ChannelIdx =
      (List.range n).map (fun k => hopPatternTable.getD ((p.hopIdx + k + 1) % 9) 0) := by
    intro n
    rw [nextHopSeq_map_channelIdx n p, hcc, hpat]
  refine ⟨⟨rfl, rfl⟩, ?_, ?_, ?_⟩ <;> rw [key] <;> try rw [key]
  all_goals
    generalize p.hopIdx = i at hidx ⊢
    interval_cases i <;> decide

theorem claim_C4_witness :
    ((NewParser 14 0 3).channelCount = 9 ∧
      (NewParser 14 0 3).hopPattern = hopPatternTable ∧
      (NewParser 14 0 3).hopIdx < 9) ∧
    (nextHopSeq (NewParser 14 0 3) 9).map Hop.ChannelIdx =
      hopPatternTable.rotate (((NewParser 14 0 3).hopIdx + 1) % 9) :=
  ⟨⟨rfl, rfl, by decide⟩,
    (claim_C4_hop_cycling (NewParser 14 0 3) rfl rfl (by decide)).2.1⟩

/-- Step equation of the parse loop: a duplicate packet is skipped with
nothing changed. -/
lemma parseGo_cons_dup {cksum : List Nat → Nat} {meas : Nat → Int}
    {seen : List (List Nat)} {p : Parser} {pkt : DspPacket} {rest : List DspPacket}
    (h : pkt.data.map SwapBitOrder ∈ seen) :
    parseGo cksum meas seen p (pkt :: rest) = parseGo cksum meas seen p rest := by
  simp [parseGo, h]

/-- Step equation of the parse loop: a checksum-failing packet is
recorded as seen and then skipped with the parser unchanged. -/
lemma parseGo_cons_bad {cksum : List Nat → Nat} {meas : Nat → Int}
    {seen : List (List Nat)} {p : Parser} {pkt : DspPacket} {rest : List DspPacket}
    (h1 : pkt.data.map SwapBitOrder ∉ seen)
    (h2 : cksum ((pkt.data.map SwapBitOrder).drop 2) ≠ 0) :
    parseGo cksum meas seen p (pkt :: rest) =
      parseGo cksum meas (pkt.data.map SwapBitOrder :: seen) p rest := by
  simp [parseGo, h1, h2]

/-- Step equation of the parse loop: a new, checksum-passing packet
updates the frequency tracker with the measured error and contributes
its decoded message. -/
lemma parseGo_cons_ok {cksum : List Nat → Nat} {meas : Nat → Int}
    {seen : List (List Nat)} {p : Parser} {pkt : DspPacket} {rest : List DspPacket}
    (h1 : pkt.data.map SwapBitOrder ∉ seen)
    (h2 : cksum ((pkt.data.map SwapBitOrder).drop 2) = 0) :
    parseGo cksum meas seen p (pkt :: rest) =
      ((parseGo cksum meas (pkt.data.map SwapBitOrder :: seen)
          (updateFreq p (meas pkt.idx)) rest).1,
        NewMessage { idx := pkt.idx, data := pkt.data.map SwapBitOrder } ::
          (parseGo cksum meas (pkt.data.map SwapBitOrder :: seen)
            (updateFreq p (meas pkt.idx)) rest).2) := by
  simp [parseGo, h1, h2]

/-- The messages produced by the parse loop are a subsequence of the
per-packet decodes, in the packets' original order. -/
lemma parseGo_msgs_sublist (cksum : List Nat → Nat) (meas : Nat → Int)
    (pkts : List DspPacket) : ∀ (seen : List (List Nat)) (p : Parser),
    ((parseGo cksum meas seen p pkts).2).Sublist
      (pkts.map fun pkt =>
        NewMessage { idx := pkt.idx, data := pkt.data.map SwapBitOrder }) := by
  induction pkts with
  | nil => intro seen p; simp [parseGo]
  | cons pkt rest ih =>
    intro seen p
    rw [List.map_cons]
    by_cases h1 : pkt.data.map SwapBitOrder ∈ seen
    · rw [parseGo_cons_dup h1]
      exact (ih seen p).cons _
    · by_cases h2 : cksum ((pkt.data.map SwapBitOrder).drop 2) ≠ 0
      · rw [parseGo_cons_bad h1 h2]
        exact (ih _ p).cons _
      · rw [parseGo_cons_ok h1 (not_not.mp h2)]
        exact (ih _ _).cons₂ _

/-- Claim C2: the checksum gate runs over the bit-reversed payload
without its first two bytes; a packet whose checksum is non-zero
contributes no message and leaves the parser (including the current
error and the per-channel error map) unchanged while processing
continues with the rest of the batch, and the returned messages are a
subsequence of the packets' decodes in original order. -/
theorem claim_C2_checksum_gate :
    (∀ cksum meas seen (p : Parser) pkt rest,
      pkt.data.map SwapBitOrder ∉ seen →
      cksum ((pkt.data.map SwapBitOrder).drop 2) ≠ 0 →
      parseGo cksum meas seen p (pkt :: rest) =
        parseGo cksum meas (pkt.data.map SwapBitOrder :: seen) p rest) ∧
    (∀ cksum meas (p : Parser) pkts,
      ((Parse cksum meas p pkts).2).Sublist
        (pkts.map fun pkt =>
          NewMessage { idx := pkt.idx, data := pkt.data.map SwapBitOrder })) := by
  constructor
  · intro cksum meas seen p pkt rest h1 h2
    simp [parseGo, h1, h2]
  · intro cksum meas p pkts
    exact parseGo_msgs_sublist cksum meas pkts [] p

theorem claim_C2_witness :
    ((([1, 2, 3, 4, 5] : List Nat).map SwapBitOrder ∉ ([] : List (List Nat))) ∧
      (fun _ : List Nat => 1) ((([1, 2, 3, 4, 5] : List Nat).map SwapBitOrder).drop 2) ≠ 0) ∧
    parseGo (fun _ => 1) (fun _ => 0) [] (NewParser 14 0 0)
        [{ idx := 0, data := [1, 2, 3, 4, 5] }] =
      parseGo (fun _ => 1) (fun _ => 0)
        [([1, 2, 3, 4, 5] : List Nat).map SwapBitOrder] (NewParser 14 0 0) [] :=
  ⟨⟨by simp, by decide⟩,
    claim_C2_checksum_gate.1 (fun _ => 1) (fun _ => 0) []
      (NewParser 14 0 0) { idx := 0, data := [1, 2, 3, 4, 5] } [] (by simp) (by decide)⟩

/-- Once a packet's deduplication key is in the seen set, that packet is
dropped wherever it occurs later in the batch, with no effect at all on
the result. -/
lemma parseGo_skip_mem (cksum : List Nat → Nat) (meas : Nat → Int)
    (b : DspPacket) (ys : List DspPacket) :
    ∀ (xs : List DspPacket) (seen : List (List Nat)) (p : Parser),
      b.data.map SwapBitOrder ∈ seen →
      parseGo cksum meas seen p (xs ++ b :: ys) =
        parseGo cksum meas seen p (xs ++ ys) := by
  intro xs
  induction xs with
  | nil =>
    intro seen p hmem
    simpa using @parseGo_cons_dup cksum meas seen p b ys hmem
  | cons x xs ih =>
    intro seen p hmem
    rw [List.cons_append, List.cons_append]
    by_cases h1 : x.data.map SwapBitOrder ∈ seen
    · rw [parseGo_cons_dup h1, parseGo_cons_dup h1]
      exact ih seen p hmem
    · by_cases h2 : cksum ((x.data.map SwapBitOrder).drop 2) ≠ 0
      · rw [parseGo_cons_bad h1 h2, parseGo_cons_bad h1 h2]
        exact ih _ p (List.mem_cons_of_mem _ hmem)
      · rw [parseGo_cons_ok h1 (not_not.mp h2), parseGo_cons_ok h1 (not_not.mp h2)]
        rw [ih _ _ (List.mem_cons_of_mem _ hmem)]

/-- A later packet whose bit-reversed payload equals that of an earlier
packet in the batch is silently dropped: the parse result is the same as
if it were absent. -/
lemma parseGo_dup_dropped (cksum : List Nat → Nat) (meas : Nat → Int)
    (a b : DspPacket) (hab : a.data.map SwapBitOrder = b.data.map SwapBitOrder)
    (xs ys : List DspPacket) :
    ∀ (pre : List DspPacket) (seen : List (List Nat)) (p : Parser),
      parseGo cksum meas seen p (pre ++ a :: (xs ++ b :: ys)) =
        parseGo cksum meas seen p (pre ++ a :: (xs ++ ys)) := by
  intro pre
  induction pre with
  | nil =>
    intro seen p
    rw [List.nil_append, List.nil_append]
    by_cases h1 : a.data.map SwapBitOrder ∈ seen
    · rw [parseGo_cons_dup h1, parseGo_cons_dup h1]
      exact parseGo_skip_mem cksum meas b ys xs seen p (hab ▸ h1)
    · by_cases h2 : cksum ((a.data.map SwapBitOrder).drop 2) ≠ 0
      · rw [parseGo_cons_bad h1 h2, parseGo_cons_bad h1 h2]
        refine parseGo_skip_mem cksum meas b ys xs _ p ?_
        rw [← hab]
        exact List.mem_cons_self _ _
      · rw [parseGo_cons_ok h1 (not_not.mp h2), parseGo_cons_ok h1 (not_not.mp h2)]
        rw [parseGo_skip_mem cksum meas b ys xs _ _ (by rw [← hab]; exact List.mem_cons_self _ _)]
  | cons x pre ih =>
    intro seen p
    rw [List.cons_append, List.cons_append]
    by_cases h1 : x.data.map SwapBitOrder ∈ seen
    · rw [parseGo_cons_dup h1, parseGo_cons_dup h1]
      exact ih seen p
    · by_cases h2 : cksum ((x.data.map SwapBitOrder).drop 2) ≠ 0
      · rw [parseGo_cons_bad h1 h2, parseGo_cons_bad h1 h2]
        exact ih _ p
      · rw [parseGo_cons_ok h1 (not_not.mp h2), parseGo_cons_ok h1 (not_not.mp h2)]
        rw [ih _ _]

/-- Claim C3: within one `Parse` call, a packet whose bit-reversed
payload is already in the seen set is skipped with no message, no
checksum evaluation (the equation holds for every checksum function) and
no tracker update; consequently of two packets with identical
bit-reversed payloads (sample indices may differ) only the first
produces a message — the batch parses exactly as if the second were
absent. -/
theorem claim_C3_dedup :
    (∀ cksum meas seen (p : Parser) pkt rest,
      pkt.data.map SwapBitOrder ∈ seen →
      parseGo cksum meas seen p (pkt :: rest) = parseGo cksum meas seen p rest) ∧
    (∀ cksum meas (p : Parser) (pre xs ys : List DspPacket) (a b : DspPacket),
      a.data.map SwapBitOrder = b.data.map SwapBitOrder →
      Parse cksum meas p (pre ++ a :: (xs ++ b :: ys)) =
        Parse cksum meas p (pre ++ a :: (xs ++ ys))) := by
  constructor
  · intro cksum meas seen p pkt rest h
    exact parseGo_cons_dup h
  · intro cksum meas p pre xs ys a b hab
    exact parseGo_dup_dropped cksum meas a b hab xs ys pre [] p

theorem claim_C3_witness :
    ((({ idx := 0, data := [1, 2, 3] } : DspPacket).data.map SwapBitOrder =
        ({ idx := 7, data := [1, 2, 3] } : DspPacket).data.map SwapBitOrder) ∧
      Parse (fun _ => 0) (fun _ => 0) (NewParser 14 0 0)
          ([] ++ ({ idx := 0, data := [1, 2, 3] } : DspPacket) ::
            ([] ++ ({ idx := 7, data := [1, 2, 3] } : DspPacket) :: [])) =
        Parse (fun _ => 0) (fun _ => 0) (NewParser 14 0 0)
          ([] ++ ({ idx := 0, data := [1, 2, 3] } : DspPacket) :: ([] ++ []))) ∧
    ((([1, 2, 3] : List Nat).map SwapBitOrder ∈
        [([1, 2, 3] : List Nat).map SwapBitOrder]) ∧
      parseGo (fun _ => 0) (fun _ => 0) [([1, 2, 3] : List Nat).map SwapBitOrder]
          (NewParser 14 0 0) [{ idx := 7, data := [1, 2, 3] }] =
        parseGo (fun _ => 0) (fun _ => 0) [([1, 2, 3] : List Nat).map SwapBitOrder]
          (NewParser 14 0 0) []) :=
  ⟨⟨rfl,
    claim_C3_dedup.2 (fun _ => 0) (fun _ => 0) (NewParser 14 0 0) [] [] []
      { idx := 0, data := [1, 2, 3] } { idx := 7, data := [1, 2, 3] } rfl⟩,
   ⟨List.mem_cons_self _ _,
    claim_C3_dedup.1 (fun _ => 0) (fun _ => 0)
      [([1, 2, 3] : List Nat).map SwapBitOrder] (NewParser 14 0 0)
      { idx := 7, data := [1, 2, 3] } [] (List.mem_cons_self _ _)⟩⟩

/-- Claim C6: a packet that passes both gates contributes a message
whose payload is the bit-reversed packet payload with the two prefix
bytes stripped, with id the low nibble of byte 0, sensor code the high
nibble of byte 0, wind speed byte 1, wind direction byte 2, and the
original sample index retained; a sensor code outside
`{2,4,5,6,7,8,9,0xA,0xE}` renders as the hex-labeled fallback string
(code 0xF renders as "Unknown(0xF)") rather than failing. -/
theorem claim_C6_message_construction :
    (∀ cksum meas seen (p : Parser) pkt rest,
      pkt.data.map SwapBitOrder ∉ seen →
      cksum ((pkt.data.map SwapBitOrder).drop 2) = 0 →
      (parseGo cksum meas seen p (pkt :: rest)).2 =
        NewMessage { idx := pkt.idx, data := pkt.data.map SwapBitOrder } ::
          (parseGo cksum meas (pkt.data.map SwapBitOrder :: seen)
            (updateFreq p (meas pkt.idx)) rest).2) ∧
    (∀ pkt : DspPacket,
      (NewMessage pkt).Idx = pkt.idx ∧
      (NewMessage pkt).Data = pkt.data.drop 2 ∧
      (NewMessage pkt).ID = (pkt.data.drop 2).getD 0 0 &&& 0xF ∧
      (NewMessage pkt).Sensor = (pkt.data.drop 2).getD 0 0 >>> 4 ∧
      (NewMessage pkt).WindSpeed = (pkt.data.drop 2).getD 1 0 ∧
      (NewMessage pkt).WindDirection = (pkt.data.drop 2).getD 2 0) ∧
    SensorString 0xF = "Unknown(0xF)" ∧
    (∀ s : Nat, s < 16 → s ∉ ([2, 4, 5, 6, 7, 8, 9, 10, 14] : List Nat) →
      SensorString s = "Unknown(0x" ++ byteHex s ++ ")") := by
  refine ⟨?_, ?_, ?_, ?_⟩
  · intro cksum meas seen p pkt rest h1 h2
    rw [parseGo_cons_ok h1 h2]
  · intro pkt
    exact ⟨rfl, rfl, rfl, rfl, rfl, rfl⟩
  · decide
  · intro s hs hmem
    revert hmem
    interval_cases s <;> decide

theorem claim_C6_witness :
    ((([0xC0, 0x00, 0xF3, 0x0C, 0xC8] : List Nat).map SwapBitOrder ∉
        ([] : List (List Nat))) ∧
      (fun _ : List Nat => 0)
        ((([0xC0, 0x00, 0xF3, 0x0C, 0xC8] : List Nat).map SwapBitOrder).drop 2) = 0 ∧
      (parseGo (fun _ => 0) (fun _ => 0) [] (NewParser 14 0 0)
          [{ idx := 4, data := [0xC0, 0x00, 0xF3, 0x0C, 0xC8] }]).2 =
        NewMessage
            { idx := 4
              data := ([0xC0, 0x00, 0xF3, 0x0C, 0xC8] : List Nat).map SwapBitOrder } ::
          (parseGo (fun _ => 0) (fun _ => 0)
            [([0xC0, 0x00, 0xF3, 0x0C, 0xC8] : List Nat).map SwapBitOrder]
            (updateFreq (NewParser 14 0 0) ((fun _ : Nat => (0 : Int)) 4)) []).2) ∧
    ((15 : Nat) < 16 ∧ (15 : Nat) ∉ ([2, 4, 5, 6, 7, 8, 9, 10, 14] : List Nat) ∧
      SensorString 15 = "Unknown(0x" ++ byteHex 15 ++ ")") :=
  ⟨⟨by simp, rfl,
    claim_C6_message_construction.1 (fun _ => 0) (fun _ => 0) [] (NewParser 14 0 0)
      { idx := 4, data := [0xC0, 0x00, 0xF3, 0x0C, 0xC8] } [] (by simp) rfl⟩,
   ⟨by decide, by decide,
    claim_C6_message_construction.2.2.2 15 (by decide) (by decide)⟩⟩

/-- Claim C5: for a packet that passes deduplication and checksum, the
parse loop applies the frequency-error measurement at the packet's
sample index as the tracker delta; the measured slice runs from 8
symbol-lengths after the sample index (inclusive) to 24 symbol-lengths
after it (exclusive); and the measurement equals the specification
formula `-(9600 + mean * sampleRate / (2 * pi))` over the arithmetic
mean of that slice, converted to an integer. -/
theorem claim_C5_freq_measurement :
    (∀ (disc : List ℝ) (symbolLength sampleRate : Nat) cksum seen (p : Parser)
        pkt rest,
      pkt.data.map SwapBitOrder ∉ seen →
      cksum ((pkt.data.map SwapBitOrder).drop 2) = 0 →
      parseGo cksum (measureFreqErr disc symbolLength sampleRate) seen p
          (pkt :: rest) =
        ((parseGo cksum (measureFreqErr disc symbolLength sampleRate)
            (pkt.data.map SwapBitOrder :: seen)
            (updateFreq p (measureFreqErr disc symbolLength sampleRate pkt.idx))
            rest).1,
          NewMessage { idx := pkt.idx, data := pkt.data.map SwapBitOrder } ::
            (parseGo cksum (measureFreqErr disc symbolLength sampleRate)
              (pkt.data.map SwapBitOrder :: seen)
              (updateFreq p (measureFreqErr disc symbolLength sampleRate pkt.idx))
              rest).2)) ∧
    (∀ (disc : List ℝ) (symbolLength idx : Nat),
      idx + 24 * symbolLength ≤ disc.length →
      (tailSlice disc symbolLength idx).length = 16 * symbolLength ∧
      ∀ k < 16 * symbolLength,
        (tailSlice disc symbolLength idx).getD k 0 =
          disc.getD (idx + 8 * symbolLength + k) 0) ∧
    (∀ (disc : List ℝ) (symbolLength sampleRate idx : Nat),
      measureFreqErr disc symbolLength sampleRate idx =
        specFreqError disc symbolLength sampleRate idx) := by
  refine ⟨?_, ?_, ?_⟩
  · intro disc symbolLength sampleRate cksum seen p pkt rest h1 h2
    rw [parseGo_cons_ok h1 h2]
  · intro disc symbolLength idx h
    constructor
    · simp only [tailSlice, List.length_drop, List.length_take]
      omega
    · intro k hk
      rw [List.getD_eq_getElem?_getD, List.getD_eq_getElem?_getD, tailSlice,
        List.getElem?_drop, List.getElem?_take, if_pos (by omega)]
  · intro disc symbolLength sampleRate idx
    rfl

theorem claim_C5_witness :
    ((([6, 6, 6, 6, 6] : List Nat).map SwapBitOrder ∉ ([] : List (List Nat))) ∧
      (fun _ : List Nat => 0)
        ((([6, 6, 6, 6, 6] : List Nat).map SwapBitOrder).drop 2) = 0 ∧
      (parseGo (fun _ => 0) (measureFreqErr (List.replicate 24 0) 1 1) []
          (NewParser 14 0 0) [{ idx := 0, data := [6, 6, 6, 6, 6] }]).1 =
        (parseGo (fun _ => 0) (measureFreqErr (List.replicate 24 0) 1 1)
          [([6, 6, 6, 6, 6] : List Nat).map SwapBitOrder]
          (updateFreq (NewParser 14 0 0) (measureFreqErr (List.replicate 24 0) 1 1 0))
          []).1) ∧
    ((0 + 24 * 1 ≤ (List.replicate 24 (0 : ℝ)).length) ∧
      (tailSlice (List.replicate 24 (0 : ℝ)) 1 0).length = 16 * 1) := by
  refine ⟨⟨by simp, rfl, ?_⟩, ⟨by simp, ?_⟩⟩
  · rw [claim_C5_freq_measurement.1 (List.replicate 24 0) 1 1 (fun _ => 0) []
      (NewParser 14 0 0) { idx := 0, data := [6, 6, 6, 6, 6] } [] (by simp) rfl]
  · exact (claim_C5_freq_measurement.2.1 (List.replicate 24 (0 : ℝ)) 1 0 (by simp)).1

/-- On a payload shorter than 5 bytes, message construction hits an
out-of-bounds access. -/
lemma newMessageChecked_none_of_short (pkt : DspPacket)
    (h : pkt.data.length < 5) : NewMessageChecked pkt = none := by
  have h2 : pkt.data[4]? = none := by
    rw [List.getElem?_eq_none]
    omega
  cases h0 : pkt.data[2]? <;> cases h1 : pkt.data[3]? <;>
    simp [NewMessageChecked, h0, h1, h2]

/-- On a payload of at least 5 bytes, checked message construction
succeeds and agrees with the totalised `NewMessage`. -/
lemma newMessageChecked_eq_some (pkt : DspPacket) (h : 5 ≤ pkt.data.length) :
    NewMessageChecked pkt = some (NewMessage pkt) := by
  cases h0 : pkt.data[2]? with
  | none => exact absurd (List.getElem?_eq_none_iff.mp h0) (by omega)
  | some b0 =>
  cases h1 : pkt.data[3]? with
  | none => exact absurd (List.getElem?_eq_none_iff.mp h1) (by omega)
  | some b1 =>
  cases h2 : pkt.data[4]? with
  | none => exact absurd (List.getElem?_eq_none_iff.mp h2) (by omega)
  | some b2 =>
  simp [NewMessageChecked, NewMessage, h0, h1, h2]

/-- Claim C10: `Parse` and `NewMessage` never check the payload length,
so parsing is total only under the precondition that every packet
payload holds at least 5 bytes: a non-duplicate, checksum-passing packet
with a shorter payload makes message construction (and with it the whole
parse) hit an out-of-bounds access, while under the precondition the
checked parse always succeeds and agrees with the total model. -/
theorem claim_C10_payload_length :
    (∀ pkt : DspPacket, pkt.data.length < 5 → NewMessageChecked pkt = none) ∧
    (∀ pkt : DspPacket, 5 ≤ pkt.data.length →
      NewMessageChecked pkt = some (NewMessage pkt)) ∧
    (∀ cksum meas seen (p : Parser) pkt rest,
      pkt.data.map SwapBitOrder ∉ seen →
      cksum ((pkt.data.map SwapBitOrder).drop 2) = 0 →
      pkt.data.length < 5 →
      parseGoChecked cksum meas seen p (pkt :: rest) = none) ∧
    (∀ cksum meas (pkts : List DspPacket),
      (∀ pkt ∈ pkts, 5 ≤ pkt.data.length) →
      ∀ seen (p : Parser),
        parseGoChecked cksum meas seen p pkts =
          some (parseGo cksum meas seen p pkts)) := by
  refine ⟨newMessageChecked_none_of_short, newMessageChecked_eq_some, ?_, ?_⟩
  · intro cksum meas seen p pkt rest h1 h2 hlen
    have hnone : NewMessageChecked
        { idx := pkt.idx, data := pkt.data.map SwapBitOrder } = none :=
      newMessageChecked_none_of_short _ (by simpa using hlen)
    simp [parseGoChecked, h1, h2, hnone]
  · intro cksum meas pkts h
    induction pkts with
    | nil => intro seen p; rfl
    | cons pkt rest ih =>
      intro seen p
      have hpkt : 5 ≤ pkt.data.length := h pkt (List.mem_cons_self _ _)
      have hrest : ∀ q ∈ rest, 5 ≤ q.data.length := fun q hq =>
        h q (List.mem_cons_of_mem _ hq)
      have hsome : NewMessageChecked
          { idx := pkt.idx, data := pkt.data.map SwapBitOrder } =
            some (NewMessage { idx := pkt.idx, data := pkt.data.map SwapBitOrder }) :=
        newMessageChecked_eq_some _ (by simpa using hpkt)
      by_cases h1 : pkt.data.map SwapBitOrder ∈ seen
      · rw [parseGo_cons_dup h1]
        simpa [parseGoChecked, h1] using ih hrest seen p
      · by_cases h2 : cksum ((pkt.data.map SwapBitOrder).drop 2) ≠ 0
        · rw [parseGo_cons_bad h1 h2]
          simpa [parseGoChecked, h1, h2] using ih hrest _ p
        · rw [parseGo_cons_ok h1 (not_not.mp h2)]
          simp [parseGoChecked, h1, h2, hsome, ih hrest]

theorem claim_C10_witness :
    ((([9, 9, 9] : List Nat).map SwapBitOrder ∉ ([] : List (List Nat))) ∧
      (fun _ : List Nat => 0) ((([9, 9, 9] : List Nat).map SwapBitOrder).drop 2) = 0 ∧
      ([9, 9, 9] : List Nat).length < 5 ∧
      parseGoChecked (fun _ => 0) (fun _ => 0) [] (NewParser 14 0 0)
        [{ idx := 0, data := [9, 9, 9] }] = none) ∧
    ((∀ pkt ∈ ([{ idx := 0, data := [1, 2, 3, 4, 5] }] : List DspPacket),
        5 ≤ pkt.data.length) ∧
      parseGoChecked (fun _ => 0) (fun _ => 0) [] (NewParser 14 0 0)
          [{ idx := 0, data := [1, 2, 3, 4, 5] }] =
        some (parseGo (fun _ => 0) (fun _ => 0) [] (NewParser 14 0 0)
          [{ idx := 0, data := [1, 2, 3, 4, 5] }])) :=
  ⟨⟨by simp, rfl, by decide,
    claim_C10_payload_length.2.2.1 (fun _ => 0) (fun _ => 0) [] (NewParser 14 0 0)
      { idx := 0, data := [9, 9, 9] } [] (by simp) rfl (by decide)⟩,
   ⟨by decide,
    claim_C10_payload_length.2.2.2 (fun _ => 0) (fun _ => 0)
      [{ idx := 0, data := [1, 2, 3, 4, 5] }] (by decide) [] (NewParser 14 0 0)⟩⟩

end Rtldavis
